import Mathlib

/-
Verification of the esm2cjs source-format detection and transformation engine.

This file gives a shallow embedding, in Lean 4, of the logic of the
repository's JavaScript sources:

  * src/src/utils.js               (path helpers, JSON reading, chunking)
  * src/index.mjs (ComponentResolver)  (component-name resolution)
  * src/src/amd-transformer.js     (format detection, dependency extraction,
                                    AMD re-emission)
  * src/unnamed/part_001           (rollup plugin default-export fix-up)
  * src/src/file-processor.js      (batch orchestration and statistics)

String-processing functions are embedded over `List Char` so that every
definition is executable by the kernel.  JavaScript regular expressions are
embedded with a small backtracking matcher (`mrun`) that follows JS
semantics: leftmost match, ordered alternation, greedy and lazy stars with
backtracking, numbered capture groups.  File-system reads are modelled by
`Option` parameters (`none` = the read or parse failed and was caught).
-/

namespace Esm2Cjs

/-- Character codes used inside string data, written out so that source
literals stay free of quote and brace characters. -/
def squote : Char := Char.ofNat 39

/-- Backtick character. -/
def btick : Char := Char.ofNat 96

/-- Opening curly brace character. -/
def lbrace : Char := Char.ofNat 123

/-- Closing curly brace character. -/
def rbrace : Char := Char.ofNat 125

/-- JS `\s` (ASCII part of the JavaScript whitespace class). -/
def wsChar (c : Char) : Bool :=
  c = ' ' || c = '\t' || c = '\n' || c = '\r' || c = '\x0b' || c = '\x0c'

/-- JS `\w`: ASCII letters, digits and underscore. -/
def wordChar (c : Char) : Bool :=
  ('a' ≤ c && c ≤ 'z') || ('A' ≤ c && c ≤ 'Z') || ('0' ≤ c && c ≤ '9') || c = '_'

/-- Quote characters recognised by the transformer's regexes:
single quote, double quote and backtick. -/
def quoteChar (c : Char) : Bool :=
  c = '"' || c = squote || c = btick

-- Equality of `Except` results is decidable; needed to settle concrete
-- resolver runs by `decide`.
deriving instance DecidableEq for Except

/-- utils.js `normalizePath`: `filePath.replace(/\\/g, '/')`. -/
def normalizePath (filePath : String) : String :=
  String.mk (filePath.data.map (fun c => if c = '\\' then '/' else c))

/-- JS `String.prototype.split` with a one-character separator.
`"".split(sep)` is `[""]` and empty fields are kept, matching JS. -/
def jsSplitAux (sep : Char) (cur : List Char) : List Char → List (List Char)
  | [] => [cur.reverse]
  | c :: rest =>
      if c = sep then cur.reverse :: jsSplitAux sep [] rest
      else jsSplitAux sep (c :: cur) rest

/-- JS split on `'/'` after `.data` conversion, as a list of segments. -/
def jsSplit (sep : Char) (s : List Char) : List (List Char) :=
  jsSplitAux sep [] s

/-- JS `Array.prototype.join` / `String.prototype.endsWith` helpers. -/
def joinWith (sep : List Char) : List (List Char) → List Char
  | [] => []
  | [x] => x
  | x :: y :: rest => x ++ sep ++ joinWith sep (y :: rest)

/-- JS `endsWith`: the suffix test used by the path classifier. -/
def jsEndsWith (suffix s : List Char) : Bool :=
  suffix.isSuffixOf s

/-- Path segments of a (backslash-normalised) path string. -/
def pathParts (filePath : String) : List String :=
  (jsSplit '/' (normalizePath filePath).data).map (fun l => String.mk l)

/-- utils.js `isValidMoodleAmdPath`: normalise backslashes, split at `'/'`,
take the index of the first segment equal to `"amd"` (JS `indexOf`), and
require the next segment to be `"src"`, the segment after that to be present
and non-empty (JS truthiness), and the raw path to end with `".js"`. -/
def isValidMoodleAmdPath (filePath : String) : Bool :=
  let parts := pathParts filePath
  match parts.findIdx? (fun p => p = "amd") with
  | none => false
  | some amdIndex =>
      (parts.getD (amdIndex + 1) "") = "src" &&
      (parts.getD (amdIndex + 2) "") ≠ "" &&
      jsEndsWith ".js".data filePath.data

/-- Modelled from the claim wording of C8 (for refinement comparison only):
a path is accepted exactly when it *contains* some segment `"amd"`
immediately followed by `"src"` and then a further non-empty segment, and
the path ends with `".js"`.  The code under test uses only the first
`"amd"` segment; this definition uses any of them. -/
def claimAmdPathCheck (filePath : String) : Bool :=
  let parts := pathParts filePath
  ((List.range parts.length).any (fun i =>
    (parts.getD i "") = "amd" &&
    (parts.getD (i + 1) "") = "src" &&
    (parts.getD (i + 2) "") ≠ "")) &&
  jsEndsWith ".js".data filePath.data

/-- Parsed shape of `lib/components.json` as consumed by
`ComponentResolver.getComponentMap`: `subsystems` maps a subsystem name to a
directory (possibly JSON `null`, modelled as `none`, which the code skips via
its `if (dir)` truthiness guard), `plugintypes` maps a plugin type to its
root directory. -/
structure ComponentsData where
  subsystems : List (String × Option String)
  plugintypes : List (String × String)
deriving DecidableEq, Repr

/-- JS object assignment `obj[k] = v`: an existing key keeps its position and
gets the new value, a new key is appended (JS insertion order). -/
def objInsert (l : List (String × String)) (k v : String) : List (String × String) :=
  match l with
  | [] => [(k, v)]
  | (k0, v0) :: rest =>
      if k0 = k then (k0, v) :: rest else (k0, v0) :: objInsert rest k v

/-- JS object read `obj[k]`: `none` models `undefined`. -/
def objGet (l : List (String × String)) (k : String) : Option String :=
  (l.find? (fun kv => kv.fst = k)).map (fun kv => kv.snd)

/-- The two mappings cached by `ComponentResolver`. -/
structure Registry where
  subsystems : List (String × String)
  plugintypes : List (String × String)
deriving DecidableEq, Repr

/-- The registry before any population (missing or unparseable file). -/
def emptyRegistry : Registry := ⟨[], []⟩

/-- utils.js `readJsonFile`: returns `null` when the file does not exist;
reads and `JSON.parse`s it otherwise, with the whole body wrapped in
`try/catch` so that a parse failure is logged and also returns `null`.
`parsed = none` models `JSON.parse` throwing. -/
def readJsonFile (fileExists : Bool) (parsed : Option ComponentsData) :
    Option ComponentsData :=
  if fileExists then parsed else none

/-- index.mjs `ComponentResolver.getComponentMap`, as a function of the
`readJsonFile` result.  When data is present: populate `subsystems` with
`dir -> "core_" + name` for every truthy `dir`, then force the special cases
`'public/lib' -> 'core'` and `'lib' -> 'core'`, then populate `plugintypes`
with `dir -> type`.  When data is `null`, both maps stay empty. -/
def getComponentMap (componentsData : Option ComponentsData) : Registry :=
  match componentsData with
  | none => emptyRegistry
  | some d =>
      let subs0 := d.subsystems.foldl
        (fun acc nv =>
          match nv.snd with
          | none => acc
          | some dir => if dir = "" then acc else objInsert acc dir ("core_" ++ nv.fst))
        []
      let subs := objInsert (objInsert subs0 "public/lib" "core") "lib" "core"
      let plugs := d.plugintypes.foldl (fun acc tv => objInsert acc tv.snd tv.fst) []
      ⟨subs, plugs⟩

/-- Registry loading as observed by callers.  The JavaScript path
(`getComponentMap` via `readJsonFile`) contains no uncaught `throw`:
`readJsonFile` catches every error internally, so loading always completes
with a registry and `Except.error` is unreachable. -/
def registryLoad (fileExists : Bool) (parsed : Option ComponentsData) :
    Except String Registry :=
  Except.ok (getComponentMap (readJsonFile fileExists parsed))

/-- JS `componentName.replace(/^_+|_+$/g, '')`. -/
def trimUnderscores (s : String) : String :=
  String.mk (((s.data.dropWhile (fun c => c = '_')).reverse.dropWhile
    (fun c => c = '_')).reverse)

/-- index.mjs `ComponentResolver.pathToComponentName`. -/
def pathToComponentName (componentPath : String) : String :=
  if componentPath = "" ∨ componentPath = "." then "core"
  else if componentPath = "lib" then "core"
  else
    let componentName :=
      String.mk (componentPath.data.map (fun c => if c = '/' then '_' else c))
    let componentName := trimUnderscores componentName
    if componentName = "" then "core" else componentName

/-- The plugin-type loop of `resolveComponentName`: first entry (in object
insertion order) whose `pluginRoot + "/"` is a prefix of the component path;
returns the type together with the remainder after the slash. -/
def findPluginMatch (plugintypes : List (String × String)) (componentPath : String) :
    Option (String × String) :=
  match plugintypes with
  | [] => none
  | (pluginRoot, ty) :: rest =>
      if (pluginRoot ++ "/").data.isPrefixOf componentPath.data then
        some (ty, String.mk (componentPath.data.drop (pluginRoot.length + 1)))
      else findPluginMatch rest componentPath

/-- Plugin-prefix and fallback stages of
`ComponentResolver.resolveComponentName` (after the subsystem exact match
did not hit). -/
def resolveComponentNameFallback (reg : Registry) (componentPath : String) :
    Except String String :=
  match findPluginMatch reg.plugintypes componentPath with
  | some (ty, pluginName) =>
      if pluginName = "" then
        Except.error ("Invalid plugin path: " ++ componentPath)
      else Except.ok (ty ++ "_" ++ pluginName)
  | none =>
      let fallbackName := pathToComponentName componentPath
      if fallbackName = "" ∨ fallbackName.data.contains '/' then
        Except.error ("Unable to resolve component name for path: " ++ componentPath)
      else Except.ok fallbackName

/-- index.mjs `ComponentResolver.resolveComponentName`: subsystem exact match
first (JS truthiness: an empty-string value does not count), then plugin
prefix match, then the path-derived fallback. -/
def resolveComponentName (reg : Registry) (componentPath : String) :
    Except String String :=
  match objGet reg.subsystems componentPath with
  | some v => if v = "" then resolveComponentNameFallback reg componentPath else Except.ok v
  | none => resolveComponentNameFallback reg componentPath

/-- index.mjs `ComponentResolver.getModuleNameFromPath`.  The JS function
starts from `path.relative(this.moodleRoot, filePath)`; the argument here is
that root-relative path (normalisation to forward slashes is applied as in
the source).  `indexOf('amd')` is the first matching segment; the segment
after it must be `'src'`; the remaining segments form the file name with one
trailing `.js` stripped (`replace(/\.js$/, '')`). -/
def getModuleNameFromPath (reg : Registry) (relativePath0 : String) :
    Except String String :=
  let relativePath := normalizePath relativePath0
  let parts := relativePath.data |> jsSplit '/' |>.map (fun l => String.mk l)
  match parts.findIdx? (fun p => p = "amd") with
  | none => Except.error ("Invalid Moodle AMD path: " ++ relativePath)
  | some amdIndex =>
      if (parts.getD (amdIndex + 1) "") ≠ "src" then
        Except.error ("Invalid Moodle AMD path: " ++ relativePath)
      else
        let componentPath := String.mk (joinWith ['/'] ((parts.take amdIndex).map String.data))
        let fileParts := parts.drop (amdIndex + 2)
        let joined := joinWith ['/'] (fileParts.map String.data)
        let fileName :=
          if jsEndsWith ".js".data joined then String.mk (joined.take (joined.length - 3))
          else String.mk joined
        if fileName = "" then
          Except.error ("Invalid file name in path: " ++ relativePath)
        else
          match resolveComponentName reg componentPath with
          | Except.error e => Except.error e
          | Except.ok componentName => Except.ok (componentName ++ "/" ++ fileName)

/-- Abstract syntax for the JavaScript regular expressions appearing in the
transformer sources: character classes, literal runs, sequencing, ordered
alternation, greedy (`*`) and lazy (`*?`) stars, the greedy option (`?`),
numbered capture groups, and the end-of-input anchor (`$`, no `m` flag). -/
inductive RE where
  | eps : RE
  | cls : (Char → Bool) → RE
  | lit : List Char → RE
  | seq : RE → RE → RE
  | alt : RE → RE → RE
  | starG : RE → RE
  | starL : RE → RE
  | optG : RE → RE
  | group : Nat → RE → RE
  | eos : RE

/-- Capture store: latest write for a group number wins, as in JS. -/
def capSet (caps : List (Nat × List Char)) (i : Nat) (v : List Char) :
    List (Nat × List Char) :=
  (i, v) :: caps

/-- Read a capture group; `none` models an unparticipated group. -/
def capGet (caps : List (Nat × List Char)) (i : Nat) : Option (List Char) :=
  (caps.find? (fun x => x.fst = i)).map (fun x => x.snd)

/-- Backtracking matcher in continuation-passing style, following JS
semantics: alternation prefers its left branch, a greedy star tries the
longer match first, a lazy star tries the shorter match first, and failure
backtracks through the pending continuations.  `fuel` bounds the recursion
depth; it is chosen large enough for all concrete runs in this file, and
the structural theorems below do not depend on its value. -/
def mrun (fuel : Nat) (re : RE) (s : List Char) (caps : List (Nat × List Char))
    (k : List Char → List (Nat × List Char) → Option (List (Nat × List Char) × List Char)) :
    Option (List (Nat × List Char) × List Char) :=
  match fuel with
  | 0 => none
  | fuel + 1 =>
    match re with
    | .eps => k s caps
    | .eos => if s.isEmpty then k s caps else none
    | .cls p =>
        match s with
        | [] => none
        | c :: rest => if p c then k rest caps else none
    | .lit l => if l.isPrefixOf s then k (s.drop l.length) caps else none
    | .seq a b => mrun fuel a s caps (fun r c => mrun fuel b r c k)
    | .alt a b =>
        match mrun fuel a s caps k with
        | some res => some res
        | none => mrun fuel b s caps k
    | .starG b =>
        match mrun fuel b s caps (fun r c => mrun fuel (.starG b) r c k) with
        | some res => some res
        | none => k s caps
    | .starL b =>
        match k s caps with
        | some res => some res
        | none => mrun fuel b s caps (fun r c => mrun fuel (.starL b) r c k)
    | .optG b =>
        match mrun fuel b s caps k with
        | some res => some res
        | none => k s caps
    | .group i b =>
        mrun fuel b s caps (fun r c => k r (capSet c i (s.take (s.length - r.length))))

/-- Fuel bound used for all concrete matcher runs. -/
def reFuel (s : List Char) : Nat := (s.length + 1) * 400 + 400

/-- Try to match `re` at the start of `s`; on success return the number of
consumed characters and the captures. -/
def reMatchAt (re : RE) (s : List Char) : Option (Nat × List (Nat × List Char)) :=
  match mrun (reFuel s) re s [] (fun rest caps => some (caps, rest)) with
  | none => none
  | some (caps, rest) => some (s.length - rest.length, caps)

/-- Leftmost search, as performed by `String.prototype.match` without the
`g` flag: try each start position from the left; on success return the
start index, the match length and the captures. -/
def reSearchAux (re : RE) : Nat → List Char → Nat → Option (Nat × Nat × List (Nat × List Char))
  | 0, _, _ => none
  | fuel + 1, s, i =>
      match reMatchAt re s with
      | some (len, caps) => some (i, len, caps)
      | none =>
          match s with
          | [] => none
          | _ :: rest => reSearchAux re fuel rest (i + 1)

/-- Leftmost search over a character list. -/
def reSearch (re : RE) (s : List Char) : Option (Nat × Nat × List (Nat × List Char)) :=
  reSearchAux re (s.length + 1) s 0

/-- Leftmost search over a string. -/
def reSearchStr (re : RE) (s : String) : Option (Nat × Nat × List (Nat × List Char)) :=
  reSearch re s.data

/-- JS `regex.test(s)`. -/
def reTest (re : RE) (s : String) : Bool :=
  (reSearchStr re s).isSome

/-- JS match-array result of `code.match(re)` for a pattern with `n` capture
groups: entry 0 is the full match text, entry `j` is group `j` (the empty
string standing for a group that did not participate, which for the patterns
below never happens on a successful match, and which the consumer maps
through `|| ''` anyway). -/
def matchArrN (re : RE) (n : Nat) (s : String) : Option (List String) :=
  match reSearchStr re s with
  | none => none
  | some (i, len, caps) =>
      some (String.mk ((s.data.drop i).take len) ::
        (List.range n).map (fun j => String.mk ((capGet caps (j + 1)).getD [])))

/-- Single-character literal. -/
def chC (c : Char) : RE := RE.cls (fun x => x = c)

/-- JS `\s*`. -/
def wsStarRE : RE := RE.starG (RE.cls wsChar)

/-- JS `\s+`. -/
def wsPlusRE : RE := RE.seq (RE.cls wsChar) wsStarRE

/-- JS `[\s\S]`. -/
def anyCharRE : RE := RE.cls (fun _ => true)

/-- One-or-more repetition of a character class. -/
def clsPlus (p : Char → Bool) : RE := RE.seq (RE.cls p) (RE.starG (RE.cls p))

/-- JS `[^'"\x60]`. -/
def notQuote (c : Char) : Bool := !(quoteChar c)

/-- Right-nested sequencing of a pattern list. -/
def seqs (l : List RE) : RE := l.foldr RE.seq RE.eps

/-- amd-transformer.js detection pattern 1 (standard AMD with a dependency
array):
`define\s*\(\s*(\[[\s\S]*?\])\s*,\s*function\s*\(([^)]*)\)\s*\x7b([\s\S]*)\x7d\s*\)\s*;?\s*$`. -/
def amdPattern1 : RE :=
  seqs [RE.lit "define".data, wsStarRE, chC '(', wsStarRE,
    RE.group 1 (seqs [chC '[', RE.starL anyCharRE, chC ']']),
    wsStarRE, chC ',', wsStarRE, RE.lit "function".data, wsStarRE, chC '(',
    RE.group 2 (RE.starG (RE.cls (fun c => c != ')'))), chC ')', wsStarRE, chC lbrace,
    RE.group 3 (RE.starG anyCharRE), chC rbrace, wsStarRE, chC ')', wsStarRE,
    RE.optG (chC ';'), wsStarRE, RE.eos]

/-- amd-transformer.js detection pattern 2 (AMD with a string name before
the dependency array); group 1 is the name, groups 2-4 are dependency text,
parameter text and body text. -/
def amdPattern2 : RE :=
  seqs [RE.lit "define".data, wsStarRE, chC '(', wsStarRE,
    RE.cls quoteChar, RE.group 1 (RE.starL (RE.cls notQuote)), RE.cls quoteChar,
    wsStarRE, chC ',', wsStarRE,
    RE.group 2 (seqs [chC '[', RE.starL anyCharRE, chC ']']),
    wsStarRE, chC ',', wsStarRE, RE.lit "function".data, wsStarRE, chC '(',
    RE.group 3 (RE.starG (RE.cls (fun c => c != ')'))), chC ')', wsStarRE, chC lbrace,
    RE.group 4 (RE.starG anyCharRE), chC rbrace, wsStarRE, chC ')', wsStarRE,
    RE.optG (chC ';'), wsStarRE, RE.eos]

/-- amd-transformer.js detection pattern 3 (simple AMD without a dependency
array); groups 1-2 are parameter text and body text. -/
def amdPattern3 : RE :=
  seqs [RE.lit "define".data, wsStarRE, chC '(', wsStarRE,
    RE.lit "function".data, wsStarRE, chC '(',
    RE.group 1 (RE.starG (RE.cls (fun c => c != ')'))), chC ')', wsStarRE, chC lbrace,
    RE.group 2 (RE.starG anyCharRE), chC rbrace, wsStarRE, chC ')', wsStarRE,
    RE.optG (chC ';'), wsStarRE, RE.eos]

/-- The pattern list of `detectExistingAmd`, in source order, paired with
each pattern's capture-group count (which fixes the JS match-array length
that `parseAmdMatch` dispatches on). -/
def amdPatterns : List (RE × Nat) :=
  [(amdPattern1, 3), (amdPattern2, 4), (amdPattern3, 2)]

/-- Structured AMD parts, as produced by `parseAmdMatch`. -/
structure AmdMatch where
  name : Option String
  dependencies : String
  params : String
  body : String
deriving DecidableEq, Repr

/-- amd-transformer.js `parseAmdMatch`: dispatch on the length of the JS
match array (1 + number of capture groups).  `match[i] || ''` is the
identity here because unparticipated groups are already represented by the
empty string. -/
def parseAmdMatch (m : List String) : Option AmdMatch :=
  if m.length = 4 then
    some ⟨none, m.getD 1 "", m.getD 2 "", m.getD 3 ""⟩
  else if m.length = 5 then
    some ⟨some (m.getD 1 ""), m.getD 2 "", m.getD 3 "", m.getD 4 ""⟩
  else if m.length = 3 then
    some ⟨none, "[]", m.getD 1 "", m.getD 2 ""⟩
  else none

/-- The `for (const pattern of patterns)` loop of `detectExistingAmd`: first
pattern that matches wins and its match array is parsed; the loop result is
`null` when no pattern matches. -/
def detectLoop (code : String) : List (RE × Nat) → Option AmdMatch
  | [] => none
  | (p, n) :: ps =>
      match matchArrN p n code with
      | some arr => parseAmdMatch arr
      | none => detectLoop code ps

/-- amd-transformer.js `detectExistingAmd`. -/
def detectExistingAmd (code : String) : Option AmdMatch :=
  detectLoop code amdPatterns

/-- Global (`g`-flag) capture scan: repeatedly search, collect group 1, and
continue after the end of each match (JS advances `lastIndex` by one extra
character on an empty match; the patterns used here never match empty). -/
def scanCapturesAux (re : RE) : Nat → List Char → List String
  | 0, _ => []
  | fuel + 1, s =>
      match reSearch re s with
      | none => []
      | some (i, len, caps) =>
          let spec := String.mk ((capGet caps 1).getD [])
          let step := if len = 0 then i + 1 else i + len
          spec :: scanCapturesAux re fuel (s.drop step)

/-- All group-1 captures of `re` over `code`, in match order. -/
def scanCaptures (re : RE) (code : String) : List String :=
  scanCapturesAux re (code.data.length + 1) code.data

/-- Like `scanCaptures` but also records each match's absolute start
position (used only by the spec-modelled ordering of C3). -/
def scanCapturesPosAux (re : RE) : Nat → List Char → Nat → List (Nat × String)
  | 0, _, _ => []
  | fuel + 1, s, off =>
      match reSearch re s with
      | none => []
      | some (i, len, caps) =>
          let spec := String.mk ((capGet caps 1).getD [])
          let step := if len = 0 then i + 1 else i + len
          (off + i, spec) :: scanCapturesPosAux re fuel (s.drop step) (off + step)

/-- Positioned captures over a string. -/
def scanCapturesPos (re : RE) (code : String) : List (Nat × String) :=
  scanCapturesPosAux re (code.data.length + 1) code.data 0

/-- The binding alternation of the import regex:
`(?:\x7b[^\x7d]*\x7d|\*\s+as\s+\w+|\w+)`. -/
def importBindingRE : RE :=
  RE.alt (seqs [chC lbrace, RE.starG (RE.cls (fun c => c != rbrace)), chC rbrace])
    (RE.alt (seqs [chC '*', wsPlusRE, RE.lit "as".data, wsPlusRE, clsPlus wordChar])
      (clsPlus wordChar))

/-- amd-transformer.js `extractDependencies` import pattern:
`import\s+(?:...)\s+from\s+['"\x60]([^'"\x60]+)['"\x60]` with the `g` flag. -/
def importRegexRE : RE :=
  seqs [RE.lit "import".data, wsPlusRE, importBindingRE, wsPlusRE,
    RE.lit "from".data, wsPlusRE, RE.cls quoteChar,
    RE.group 1 (clsPlus notQuote), RE.cls quoteChar]

/-- amd-transformer.js `extractDependencies` require pattern:
`require\s*\(\s*['"\x60]([^'"\x60]+)['"\x60]\s*\)` with the `g` flag. -/
def requireRegexRE : RE :=
  seqs [RE.lit "require".data, wsStarRE, chC '(', wsStarRE, RE.cls quoteChar,
    RE.group 1 (clsPlus notQuote), RE.cls quoteChar, wsStarRE, chC ')']

/-- The `if (!dependencies.includes(dep)) dependencies.push(dep)` step. -/
def pushUnique (acc : List String) (dep : String) : List String :=
  if acc.contains dep then acc else acc ++ [dep]

/-- amd-transformer.js `extractDependencies`: one full pass collecting all
the import specifiers, then one full pass collecting the require
specifiers, each pushed only when not already present. -/
def extractDependencies (code : String) : List String :=
  let afterImports := (scanCaptures importRegexRE code).foldl pushUnique []
  (scanCaptures requireRegexRE code).foldl pushUnique afterImports

/-- Stable insertion by position. -/
def insertByPos (x : Nat × String) : List (Nat × String) → List (Nat × String)
  | [] => [x]
  | y :: rest => if x.fst < y.fst then x :: y :: rest else y :: insertByPos x rest

/-- Stable sort by position. -/
def sortByPos (l : List (Nat × String)) : List (Nat × String) :=
  l.foldr insertByPos []

/-- Modelled from the claim wording of C3 (for refinement comparison only):
the distinct specifiers in first-occurrence order *of textual position*,
whether an occurrence is an import statement or a require call. -/
def specOrderedDependencies (code : String) : List String :=
  let occurrences :=
    sortByPos (scanCapturesPos importRegexRE code ++ scanCapturesPos requireRegexRE code)
  (occurrences.map (fun o => o.snd)).foldl pushUnique []

/-- Reference dedup used to state what `foldl pushUnique` computes:
keep the first occurrence of each element not already in `seen`. -/
def dedupKeep (seen : List String) : List String → List String
  | [] => []
  | d :: ds =>
      if seen.contains d then dedupKeep seen ds
      else d :: dedupKeep (seen ++ [d]) ds

/-- JS `String.prototype.trim` (ASCII whitespace part). -/
def jsTrim (s : String) : String :=
  String.mk (((s.data.dropWhile wsChar).reverse.dropWhile wsChar).reverse)

/-- Replace every match of `re` by `repl` (JS `replace` with the `g` flag). -/
def replaceAllAux (re : RE) (repl : List Char) : Nat → List Char → List Char
  | 0, s => s
  | fuel + 1, s =>
      match reSearch re s with
      | none => s
      | some (i, len, _) =>
          if len = 0 then s.take (i + 1) ++ replaceAllAux re repl fuel (s.drop (i + 1))
          else s.take i ++ repl ++ replaceAllAux re repl fuel (s.drop (i + len))

/-- String-level replace-all. -/
def replaceAllRE (re : RE) (repl : String) (code : String) : String :=
  String.mk (replaceAllAux re repl.data (code.data.length + 1) code.data)

/-- JS `replace` without the `g` flag and with a constant replacement. -/
def replaceFirstRE (re : RE) (repl : String) (code : String) : String :=
  match reSearchStr re code with
  | none => code
  | some (i, len, _) =>
      String.mk (code.data.take i ++ repl.data ++ code.data.drop (i + len))

/-- Strip a leading match of an `^`-anchored pattern (replacement by the
empty string; with `^` and no `m` flag only position 0 can match). -/
def stripAtStart (re : RE) (code : String) : String :=
  match reMatchAt re code.data with
  | none => code
  | some (len, _) => String.mk (code.data.drop len)

/-- Import-statement removal pattern of `transformEsModuleCode` (same shape
as the extraction pattern, plus `;?\s*`, replaced by the empty string). -/
def importRemovalRE : RE :=
  seqs [RE.lit "import".data, wsPlusRE, importBindingRE, wsPlusRE,
    RE.lit "from".data, wsPlusRE, RE.cls quoteChar, clsPlus notQuote,
    RE.cls quoteChar, RE.optG (chC ';'), wsStarRE]

/-- Removal pattern `export\s+(?:default\s+)?`. -/
def exportRemovalRE : RE :=
  seqs [RE.lit "export".data, wsPlusRE, RE.optG (seqs [RE.lit "default".data, wsPlusRE])]

/-- Pattern `require\s*\(\s*['"\x60]<dep>['"\x60]\s*\)` for one extracted dependency
(the JS source builds this with `escapeRegex(dep)`, so `dep` is matched
literally). -/
def requireCallRE (dep : String) : RE :=
  seqs [RE.lit "require".data, wsStarRE, chC '(', wsStarRE, RE.cls quoteChar,
    RE.lit dep.data, RE.cls quoteChar, wsStarRE, chC ')']

/-- Pattern `^\s*\(function\s*\([^)]*\)\s*\x7b` (leading IIFE wrapper). -/
def iifeStartRE : RE :=
  seqs [wsStarRE, chC '(', RE.lit "function".data, wsStarRE, chC '(',
    RE.starG (RE.cls (fun c => c != ')')), chC ')', wsStarRE, chC lbrace]

/-- Pattern `\x7d\s*\([^)]*\)\s*\);\s*$` (trailing IIFE invocation). -/
def iifeEndRE : RE :=
  seqs [chC rbrace, wsStarRE, chC '(', RE.starG (RE.cls (fun c => c != ')')),
    chC ')', wsStarRE, chC ')', chC ';', wsStarRE, RE.eos]

/-- Decimal digits without well-founded recursion (kernel-reducible). -/
def natDigitsAux : Nat → Nat → List Char
  | 0, _ => []
  | fuel + 1, n =>
      if n < 10 then [Char.ofNat (48 + n)]
      else natDigitsAux fuel (n / 10) ++ [Char.ofNat (48 + n % 10)]

/-- Decimal rendering of a natural number. -/
def natToStr (n : Nat) : String := String.mk (natDigitsAux (n + 1) n)

/-- amd-transformer.js `generateParameters`: `dep0, dep1, ...`. -/
def generateParameters (dependencies : List String) : String :=
  String.mk (joinWith ", ".data
    ((List.range dependencies.length).map (fun i => ("dep" ++ natToStr i).data)))

/-- The dependency-index loop of `transformEsModuleCode`: replace each
`require("<dep>")` occurrence by its positional parameter token. -/
def replaceRequiresWithParams (dependencies : List String) (code : String) : String :=
  dependencies.enum.foldl
    (fun acc p => replaceAllRE (requireCallRE p.snd) ("dep" ++ natToStr p.fst) acc)
    code

/-- amd-transformer.js `transformEsModuleCode`: strip import statements,
strip `export` / `export default` keywords, replace require calls by
parameter tokens, strip one IIFE wrapper layer, trim. -/
def transformEsModuleCode (code : String) (dependencies : List String) : String :=
  let c1 := replaceAllRE importRemovalRE "" code
  let c2 := replaceAllRE exportRemovalRE "" c1
  let c3 := replaceRequiresWithParams dependencies c2
  let c4 := stripAtStart iifeStartRE c3
  let c5 := replaceFirstRE iifeEndRE "" c4
  jsTrim c5

/-- Hex digit (lowercase, as in `JSON.stringify` escapes). -/
def hexDigit (n : Nat) : Char :=
  if n < 10 then Char.ofNat (48 + n) else Char.ofNat (87 + n)

/-- JSON escaping (`JSON.stringify`) of one string character. -/
def jsonEscapeChar (c : Char) : List Char :=
  if c = '"' then ['\\', '"']
  else if c = '\\' then ['\\', '\\']
  else if c = '\n' then ['\\', 'n']
  else if c = '\r' then ['\\', 'r']
  else if c = '\t' then ['\\', 't']
  else if c = '\x08' then ['\\', 'b']
  else if c = '\x0c' then ['\\', 'f']
  else if c.toNat < 32 then
    ['\\', 'u', '0', '0', hexDigit (c.toNat / 16), hexDigit (c.toNat % 16)]
  else [c]

/-- A JSON string literal for `s`. -/
def jsonQuote (s : String) : List Char :=
  '"' :: (s.data.foldr (fun c acc => jsonEscapeChar c ++ acc) ['"'])

/-- JSON rendering (`JSON.stringify`) of an array of strings (no added whitespace). -/
def jsonStringifyArr (l : List String) : String :=
  String.mk ('[' :: (joinWith [','] (l.map jsonQuote) ++ [']']))

/-- Clean-up pattern `,\s*]` of `parseDependencies`. -/
def commaCloseRE : RE := seqs [chC ',', wsStarRE, chC ']']

/-- The fallback token pattern `['"\x60]([^'"\x60]+)['"\x60]` of
`parseDependencies`; the JS `dep.slice(1, -1)` on a full match equals the
group-1 capture, since the quotes are single characters. -/
def quotedTokenRE : RE :=
  seqs [RE.cls quoteChar, RE.group 1 (clsPlus notQuote), RE.cls quoteChar]

/-- Drop leading JSON whitespace. -/
def skipWsL (s : List Char) : List Char := s.dropWhile wsChar

/-- JSON escape decoding (`\uXXXX` is not decoded here; a dependency string
using it would make this parser fail and the code fall back to the quoted
token scan). -/
def jsonUnescape (e : Char) : Option Char :=
  if e = '"' then some '"'
  else if e = '\\' then some '\\'
  else if e = '/' then some '/'
  else if e = 'b' then some '\x08'
  else if e = 'f' then some '\x0c'
  else if e = 'n' then some '\n'
  else if e = 'r' then some '\r'
  else if e = 't' then some '\t'
  else none

/-- Parse the remainder of a JSON string literal (after the opening quote). -/
def jsonStrAux : Nat → List Char → Option (List Char × List Char)
  | 0, _ => none
  | _ + 1, [] => none
  | fuel + 1, c :: rest =>
      if c = '"' then some ([], rest)
      else if c = '\\' then
        match rest with
        | [] => none
        | e :: r2 =>
            match jsonUnescape e with
            | none => none
            | some u =>
                match jsonStrAux fuel r2 with
                | none => none
                | some (cs, r3) => some (u :: cs, r3)
      else if c.toNat < 32 then none
      else
        match jsonStrAux fuel rest with
        | none => none
        | some (cs, r3) => some (c :: cs, r3)

/-- Parse `"elem" (, "elem")* ]` (leading whitespace already skipped),
returning the elements and the remainder after the closing bracket. -/
def jsonElemsAux : Nat → List Char → Option (List String × List Char)
  | 0, _ => none
  | _ + 1, [] => none
  | fuel + 1, c :: rest =>
      if c = '"' then
        match jsonStrAux (rest.length + 1) rest with
        | none => none
        | some (str0, r2) =>
            match skipWsL r2 with
            | [] => none
            | c2 :: r4 =>
                if c2 = ',' then
                  match jsonElemsAux fuel (skipWsL r4) with
                  | none => none
                  | some (elems, r5) => some (String.mk str0 :: elems, r5)
                else if c2 = ']' then some ([String.mk str0], r4)
                else none
      else none

/-- JSON parsing (`JSON.parse`) restricted to arrays of strings (the only shape a
dependency-array capture can sensibly produce; any other JSON makes this
model fall back where JS would return a non-array value — a corner that no
code path of the claims exercises). -/
def jsonParseStringArray (s : List Char) : Option (List String) :=
  match skipWsL s with
  | [] => none
  | c :: rest =>
      if c = '[' then
        match skipWsL rest with
        | [] => none
        | c2 :: r2 =>
            if c2 = ']' then
              if (skipWsL r2).isEmpty then some [] else none
            else
              match jsonElemsAux (rest.length + 1) (skipWsL rest) with
              | none => none
              | some (elems, r3) =>
                  if (skipWsL r3).isEmpty then some elems else none
      else none

/-- amd-transformer.js `parseDependencies`: empty input gives `[]`;
otherwise normalise single quotes to double quotes, drop trailing commas,
collapse whitespace runs and try JSON; on failure scan the *original* text
for quoted tokens; no token at all gives `[]` with a warning. -/
def parseDependencies (dependenciesStr : String) : List String :=
  if dependenciesStr = "" then []
  else
    let clean1 := String.mk (dependenciesStr.data.map (fun c => if c = squote then '"' else c))
    let clean2 := replaceAllRE commaCloseRE "]" clean1
    let clean3 := replaceAllRE wsPlusRE " " clean2
    match jsonParseStringArray clean3.data with
    | some deps => deps
    | none => scanCaptures quotedTokenRE dependenciesStr

/-- Formatting options of `formatAmdModule` (JS defaults: `indentSize = 4`,
`addSourceComment = false`, `indentBody !== false`). -/
structure TransformOptions where
  indentSize : Nat := 4
  addSourceComment : Bool := false
  indentBody : Bool := true
deriving DecidableEq, Repr

/-- JS `' '.repeat(indentSize)`. -/
def indentStr (n : Nat) : String := String.mk (List.replicate n ' ')

/-- Body indentation step of `formatAmdModule`: split at newlines, indent
each non-empty line. -/
def formatBody (opts : TransformOptions) (body : String) : String :=
  if opts.indentBody then
    String.mk (joinWith ['\n'] ((jsSplit '\n' body.data).map
      (fun line => if line.isEmpty then line else (indentStr opts.indentSize).data ++ line)))
  else body

/-- amd-transformer.js `formatAmdModule`: the canonical emitted shape
`define("<id>", <json deps>, function(<params>) \x7b ... \x7d);`. -/
def formatAmdModule (moduleId : String) (dependencies : List String)
    (params body : String) (opts : TransformOptions) : String :=
  let indent := indentStr opts.indentSize
  let formattedBody := formatBody opts body
  let header := "define(\"" ++ moduleId ++ "\", " ++ jsonStringifyArr dependencies ++
    ", function(" ++ params ++ ") \x7b\n"
  let withComment :=
    if opts.addSourceComment then header ++ indent ++ "// Transformed from ES6 module\n"
    else header
  withComment ++ formattedBody ++ "\n\x7d);"

/-- amd-transformer.js `transformExistingAmd`: parse the captured dependency
text (failures degrade to `[]`), trim the body, keep the parameter text, and
re-emit through `formatAmdModule` with the *new* module id. -/
def transformExistingAmd (amdMatch : AmdMatch) (moduleId : String)
    (opts : TransformOptions) : String :=
  let dependencies := parseDependencies amdMatch.dependencies
  let body := jsTrim amdMatch.body
  let params := amdMatch.params
  formatAmdModule moduleId dependencies params body opts

/-- amd-transformer.js `transformEsModuleToAmd`. -/
def transformEsModuleToAmd (code : String) (moduleId : String)
    (opts : TransformOptions) : String :=
  let dependencies := extractDependencies code
  let transformedCode := transformEsModuleCode code dependencies
  let params := generateParameters dependencies
  formatAmdModule moduleId dependencies params transformedCode opts

/-- amd-transformer.js `readOriginalSource`: a failed read is caught, logged
and replaced by the empty string. -/
def readOriginalSource (readResult : Option String) : String :=
  match readResult with
  | some content => content
  | none => ""

/-- amd-transformer.js `transformToAmd`: detect on the original source; on a
match re-emit the existing AMD, otherwise transform along the ES-module
path. -/
def transformToAmd (code moduleId : String) (originalRead : Option String)
    (opts : TransformOptions) : String :=
  let originalCode := readOriginalSource originalRead
  match detectExistingAmd originalCode with
  | some amdMatch => transformExistingAmd amdMatch moduleId opts
  | none => transformEsModuleToAmd code moduleId opts

/-- part_001 marker pattern
`Object\.defineProperty\s*\(\s*exports\s*,\s*['"]default['"]`. -/
def markerRe1 : RE :=
  seqs [RE.lit "Object.defineProperty".data, wsStarRE, chC '(', wsStarRE,
    RE.lit "exports".data, wsStarRE, chC ',', wsStarRE,
    RE.cls (fun c => c = '"' || c = squote), RE.lit "default".data,
    RE.cls (fun c => c = '"' || c = squote)]

/-- part_001 marker pattern `exports\.default\s*=`. -/
def markerRe2 : RE :=
  seqs [RE.lit "exports.default".data, wsStarRE, chC '=']

/-- part_001 already-present test `return\s+exports\.default`. -/
def returnRe : RE :=
  seqs [RE.lit "return".data, wsPlusRE, RE.lit "exports.default".data]

/-- part_001 fix-up pattern
`(define \([\s\S]*?function\s*\(([^)]*)\)\s*\x7b)([\s\S]*?)(\x7d\s*\)\s*;?)`
(the inner parameter parentheses are not a capture in the source either;
groups 1-3 are the header, the lazily-matched body prefix and the closer). -/
def fixRe : RE :=
  seqs [RE.group 1 (seqs [RE.lit "define (".data, RE.starL anyCharRE,
      RE.lit "function".data, wsStarRE, chC '(',
      RE.starG (RE.cls (fun c => c != ')')), chC ')', wsStarRE, chC lbrace]),
    RE.group 2 (RE.starL anyCharRE),
    RE.group 3 (seqs [chC rbrace, wsStarRE, chC ')', wsStarRE, RE.optG (chC ';')])]

/-- Captured text of group `i` as a string. -/
def capStr (caps : List (Nat × List Char)) (i : Nat) : String :=
  String.mk ((capGet caps i).getD [])

/-- part_001 default-export fix-up (plugin `transform`, lines 169-177): when
a default-export marker is present anywhere in the text, rewrite the first
`fixRe` match, inserting `return exports.default;` between the body prefix
and the closer unless the body prefix already contains such a return, in
which case the replacement callback returns the match unchanged. -/
def defaultExportFixup (newCode : String) : String :=
  if reTest markerRe1 newCode || reTest markerRe2 newCode then
    match reSearchStr fixRe newCode with
    | none => newCode
    | some (i, len, caps) =>
        let pre := String.mk (newCode.data.take i)
        let matched := String.mk ((newCode.data.drop i).take len)
        let post := String.mk (newCode.data.drop (i + len))
        let bodyPart := capStr caps 2
        if reTest returnRe bodyPart then pre ++ matched ++ post
        else
          pre ++ (capStr caps 1 ++ bodyPart ++ "\n    return exports.default;" ++
            capStr caps 3) ++ post
  else newCode

/-- Counters of `FileProcessor.stats`. -/
structure Stats where
  processed : Nat
  succeeded : Nat
  failed : Nat
  skipped : Nat
deriving DecidableEq, Repr

/-- Per-file result object of `processSingleFile`. -/
structure FileResult where
  success : Bool
  filePath : String
  moduleName : Option String
  errorMsg : Option String
deriving DecidableEq, Repr

/-- file-processor.js `processSingleFile`: resolve the module name, then
build; every failure is caught, recorded in the result and counted, and
`processed` is incremented on every path.  `resolver` stands for
`componentResolver.getModuleNameFromPath` and `build` for the output-path,
directory and Rollup pipeline steps (external effects). -/
def processSingleFile (resolver : String → Except String String)
    (build : String → Except String Unit) (stats : Stats) (filePath : String) :
    Stats × FileResult :=
  match resolver filePath with
  | Except.error e =>
      ({ stats with failed := stats.failed + 1, processed := stats.processed + 1 },
       ⟨false, filePath, none, some e⟩)
  | Except.ok moduleName =>
      match build filePath with
      | Except.error e =>
          ({ stats with failed := stats.failed + 1, processed := stats.processed + 1 },
           ⟨false, filePath, some moduleName, some e⟩)
      | Except.ok _ =>
          ({ stats with succeeded := stats.succeeded + 1, processed := stats.processed + 1 },
           ⟨true, filePath, some moduleName, none⟩)

/-- The result object `processSingleFile` returns for a file, independent of
the running statistics (helper for stating batch results). -/
def resultOf (resolver : String → Except String String)
    (build : String → Except String Unit) (filePath : String) : FileResult :=
  match resolver filePath with
  | Except.error e => ⟨false, filePath, none, some e⟩
  | Except.ok moduleName =>
      match build filePath with
      | Except.error e => ⟨false, filePath, some moduleName, some e⟩
      | Except.ok _ => ⟨true, filePath, some moduleName, none⟩

/-- utils.js `chunkArray`:
`Array.from(\x7b length: ceil(n / size) \x7d, (_, i) => arr.slice(i*size, i*size + size))`. -/
def chunkArray (arr : List String) (size : Nat) : List (List String) :=
  (List.range ((arr.length + size - 1) / size)).map
    (fun i => (arr.drop (i * size)).take size)

/-- One batch of `processMultipleFiles`: `Promise.all` over the batch; each
completion performs its own counter increments (singled-threaded event loop,
so the net counter effect is the sequential sum). -/
def processBatch (resolver : String → Except String String)
    (build : String → Except String Unit) (st : Stats) (batch : List String) :
    Stats × List FileResult :=
  batch.foldl (fun acc fp =>
    let out := processSingleFile resolver build acc.fst fp
    (out.fst, acc.snd ++ [out.snd])) (st, [])

/-- file-processor.js `processMultipleFiles`: reset the statistics, return
early on an empty input, otherwise chunk into batches of `concurrency` files
and process the batches in order, appending results. -/
def processMultipleFiles (resolver : String → Except String String)
    (build : String → Except String Unit) (filePaths : List String)
    (concurrency : Nat) : Stats × List FileResult :=
  let stats0 : Stats := ⟨0, 0, 0, 0⟩
  if filePaths.isEmpty then (stats0, [])
  else
    (chunkArray filePaths concurrency).foldl (fun acc batch =>
      let out := processBatch resolver build acc.fst batch
      (out.fst, acc.snd ++ out.snd)) (stats0, [])

/-- Number of (possibly overlapping) occurrences of `p` in `s`:
one per start position at which `p` is a prefix of the remainder. -/
def countSub (p : List Char) (s : List Char) : Nat :=
  match s with
  | [] => 0
  | c :: rest => (if p.isPrefixOf (c :: rest) then 1 else 0) + countSub p rest

/-- The marker whose occurrence count measures duplicated emission. -/
def defineChars : List Char := "define".data

/-! ## Helper lemmas -/

lemma objGet_cons (k0 v0 : String) (rest : List (String × String)) (k : String) :
    objGet ((k0, v0) :: rest) k = if k0 = k then some v0 else objGet rest k := by
  by_cases h : k0 = k <;> simp [objGet, List.find?, h]

lemma objGet_objInsert_self (l : List (String × String)) (k v : String) :
    objGet (objInsert l k v) k = some v := by
  induction l with
  | nil => simp [objInsert, objGet, List.find?]
  | cons kv rest ih =>
      obtain ⟨k0, v0⟩ := kv
      by_cases h : k0 = k
      · simp [objInsert, h, objGet_cons]
      · simp [objInsert, h, objGet_cons, ih]

lemma objGet_objInsert_of_ne (l : List (String × String)) (k v k' : String)
    (h : k' ≠ k) : objGet (objInsert l k v) k' = objGet l k' := by
  induction l with
  | nil => simp [objInsert, objGet_cons, if_neg (Ne.symm h), objGet]
  | cons kv rest ih =>
      obtain ⟨k0, v0⟩ := kv
      by_cases h0 : k0 = k
      · subst h0
        simp [objInsert, objGet_cons, if_neg (Ne.symm h)]
      · simp [objInsert, h0, objGet_cons, ih]

/-! ## C1: registry loading never raises -/

/-- C1 counterexample: the claim says loading raises an error exactly when
the configuration file exists but is unparseable.  At the concrete input
"file exists, JSON.parse fails" the load completes successfully with the
empty registry, so the claimed equivalence is false. -/
theorem spec2proof_C1_counterexample :
    registryLoad true none = Except.ok emptyRegistry ∧
    ¬ (∀ (fileExists : Bool) (parsed : Option ComponentsData),
        (registryLoad fileExists parsed).isOk = true ↔
          ¬ (fileExists = true ∧ parsed = none)) := by
  constructor
  · decide
  · intro h
    exact ((h true none).mp (by decide)) ⟨rfl, rfl⟩

/-- C1 (amended): registry loading never raises at all.  A missing
configuration file and an unparseable one both yield the empty registry
(the parse failure is caught inside `readJsonFile`); when the file exists
and parses, the registry is built from the parsed data. -/
theorem spec2proof_C1_theorem :
    ∀ (fileExists : Bool) (parsed : Option ComponentsData),
      (registryLoad fileExists parsed).isOk = true ∧
      registryLoad false parsed = Except.ok emptyRegistry ∧
      registryLoad true none = Except.ok emptyRegistry ∧
      registryLoad true parsed = Except.ok (getComponentMap parsed) := by
  intro fe p
  refine ⟨?_, ?_, by decide, ?_⟩
  · simp [registryLoad, Except.isOk, Except.toBool]
  · simp [registryLoad, readJsonFile, getComponentMap, emptyRegistry]
  · simp [registryLoad, readJsonFile]

/-! ## C2: the 'lib' / 'public/lib' special cases -/

/-- C2 counterexample: with an unparseable (or missing) configuration file
the registry is empty and the special-case subsystem entries are never
installed, so `'public/lib'` resolves through the fallback to
`'public_lib'`, not to `'core'`. -/
theorem spec2proof_C2_counterexample :
    resolveComponentName (getComponentMap (readJsonFile true none)) "public/lib" =
      Except.ok "public_lib" ∧
    resolveComponentName (getComponentMap (readJsonFile true none)) "public/lib" ≠
      Except.ok "core" := by
  exact ⟨by decide, by decide⟩

/-- C2 (amended): when the configuration file is present and parseable, both
`'lib'` and `'public/lib'` resolve to `'core'` whatever the configuration
contains; with an empty registry `'lib'` still resolves to `'core'` (via the
path fallback) but `'public/lib'` resolves to `'public_lib'`. -/
theorem spec2proof_C2_theorem :
    ∀ (d : ComponentsData),
      resolveComponentName (getComponentMap (some d)) "lib" = Except.ok "core" ∧
      resolveComponentName (getComponentMap (some d)) "public/lib" = Except.ok "core" ∧
      resolveComponentName (getComponentMap none) "lib" = Except.ok "core" ∧
      resolveComponentName (getComponentMap none) "public/lib" = Except.ok "public_lib" := by
  intro d
  refine ⟨?_, ?_, by decide, by decide⟩
  · have h : objGet (getComponentMap (some d)).subsystems "lib" = some "core" := by
      simp only [getComponentMap]
      exact objGet_objInsert_self _ _ _
    simp [resolveComponentName, h]
  · have h : objGet (getComponentMap (some d)).subsystems "public/lib" = some "core" := by
      simp only [getComponentMap]
      rw [objGet_objInsert_of_ne _ _ _ _ (by decide)]
      exact objGet_objInsert_self _ _ _
    simp [resolveComponentName, h]

/-! ## C4: the three concrete resolutions -/

/-- C4: with subsystem map `{"access": "lib/access"}` and plugin-type map
`{"mod": "mod"}`, the three example paths resolve exactly as stated. -/
theorem spec2proof_C4_theorem :
    getModuleNameFromPath
        (getComponentMap (some ⟨[("access", some "lib/access")], [("mod", "mod")]⟩))
        "mod/forum/amd/src/x.js" = Except.ok "mod_forum/x" ∧
    getModuleNameFromPath
        (getComponentMap (some ⟨[("access", some "lib/access")], [("mod", "mod")]⟩))
        "lib/access/amd/src/y.js" = Except.ok "core_access/y" ∧
    getModuleNameFromPath
        (getComponentMap (some ⟨[("access", some "lib/access")], [("mod", "mod")]⟩))
        "lib/amd/src/z.js" = Except.ok "core/z" := by
  exact ⟨by decide, by decide, by decide⟩

lemma foldl_pushUnique (l : List String) : ∀ (seen : List String),
    l.foldl pushUnique seen = seen ++ dedupKeep seen l := by
  induction l with
  | nil => intro seen; simp [dedupKeep]
  | cons d ds ih =>
      intro seen
      by_cases hm : d ∈ seen
      · simp [pushUnique, hm, dedupKeep, ih]
      · simp [pushUnique, hm, dedupKeep, ih (seen ++ [d]), List.append_assoc]

lemma dedupKeep_nodup (l : List String) : ∀ (seen : List String), seen.Nodup →
    (seen ++ dedupKeep seen l).Nodup := by
  induction l with
  | nil => intro seen hs; simpa [dedupKeep]
  | cons d ds ih =>
      intro seen hs
      by_cases hm : d ∈ seen
      · simpa [dedupKeep, hm] using ih seen hs
      · have hseen : (seen ++ [d]).Nodup := by
          rw [List.nodup_append]
          refine ⟨hs, List.nodup_singleton d, ?_⟩
          intro a ha hb
          rw [List.mem_singleton] at hb
          exact hm (hb ▸ ha)
        have := ih (seen ++ [d]) hseen
        simpa [dedupKeep, hm, List.append_assoc] using this

/-! ## C3: order of extracted dependencies -/

/-- C3 counterexample: with a require call textually before an import
statement, the code lists the import specifier first, while the claimed
global first-occurrence order lists the require specifier first. -/
theorem spec2proof_C3_counterexample :
    extractDependencies "require(\"a\");\nimport B from \"b\";\n" = ["b", "a"] ∧
    specOrderedDependencies "require(\"a\");\nimport B from \"b\";\n" = ["a", "b"] ∧
    extractDependencies "require(\"a\");\nimport B from \"b\";\n" ≠
      specOrderedDependencies "require(\"a\");\nimport B from \"b\";\n" := by
  exact ⟨by decide, by decide, by decide⟩

/-- C3 (amended): the extracted list is the distinct import specifiers in
first-occurrence order followed by the distinct require-call specifiers not
already among them, in first-occurrence order — one full import pass, then
one full require pass — and the result never contains a duplicate. -/
theorem spec2proof_C3_theorem :
    ∀ (code : String),
      extractDependencies code =
        dedupKeep [] (scanCaptures importRegexRE code) ++
          dedupKeep (dedupKeep [] (scanCaptures importRegexRE code))
            (scanCaptures requireRegexRE code) ∧
      (extractDependencies code).Nodup := by
  intro code
  have hext : extractDependencies code =
      dedupKeep [] (scanCaptures importRegexRE code) ++
        dedupKeep (dedupKeep [] (scanCaptures importRegexRE code))
          (scanCaptures requireRegexRE code) := by
    simp only [extractDependencies]
    rw [foldl_pushUnique, foldl_pushUnique]
    simp
  refine ⟨hext, ?_⟩
  rw [hext]
  have base : (dedupKeep [] (scanCaptures importRegexRE code)).Nodup := by
    have := dedupKeep_nodup (scanCaptures importRegexRE code) [] List.nodup_nil
    simpa using this
  exact dedupKeep_nodup (scanCaptures requireRegexRE code) _ base

/-! ## C10: unreadable original source -/

/-- C10: when the original file cannot be read, the empty string is
substituted, format detection finds no AMD match on it, and the transform
follows the ES-module path — no error is raised. -/
theorem spec2proof_C10_theorem :
    ∀ (code moduleId : String) (opts : TransformOptions),
      readOriginalSource none = "" ∧
      detectExistingAmd (readOriginalSource none) = none ∧
      transformToAmd code moduleId none opts = transformEsModuleToAmd code moduleId opts := by
  intro code mid opts
  have h : detectExistingAmd (readOriginalSource none) = none := by decide
  exact ⟨rfl, h, by simp [transformToAmd, h]⟩

lemma matchArrN_length (re : RE) (n : Nat) (s : String) (arr : List String)
    (h : matchArrN re n s = some arr) : arr.length = n + 1 := by
  unfold matchArrN at h
  cases hs : reSearchStr re s with
  | none => rw [hs] at h; cases h
  | some t =>
      obtain ⟨i, len, caps⟩ := t
      rw [hs] at h
      simp only [Option.some.injEq] at h
      subst h
      simp

lemma parseAmdMatch_of_len4 (arr : List String) (h : arr.length = 4) :
    parseAmdMatch arr = some ⟨none, arr.getD 1 "", arr.getD 2 "", arr.getD 3 ""⟩ := by
  rcases arr with _ | ⟨a, arr⟩
  · simp at h
  rcases arr with _ | ⟨b, arr⟩
  · simp at h
  rcases arr with _ | ⟨c, arr⟩
  · simp at h
  rcases arr with _ | ⟨d, arr⟩
  · simp at h
  rcases arr with _ | ⟨e, arr⟩
  · simp [parseAmdMatch]
  · simp at h

lemma parseAmdMatch_of_len5 (arr : List String) (h : arr.length = 5) :
    parseAmdMatch arr =
      some ⟨some (arr.getD 1 ""), arr.getD 2 "", arr.getD 3 "", arr.getD 4 ""⟩ := by
  rcases arr with _ | ⟨a, arr⟩
  · simp at h
  rcases arr with _ | ⟨b, arr⟩
  · simp at h
  rcases arr with _ | ⟨c, arr⟩
  · simp at h
  rcases arr with _ | ⟨d, arr⟩
  · simp at h
  rcases arr with _ | ⟨e, arr⟩
  · simp at h
  rcases arr with _ | ⟨f, arr⟩
  · simp [parseAmdMatch]
  · simp at h

lemma parseAmdMatch_of_len3 (arr : List String) (h : arr.length = 3) :
    parseAmdMatch arr = some ⟨none, "[]", arr.getD 1 "", arr.getD 2 ""⟩ := by
  rcases arr with _ | ⟨a, arr⟩
  · simp at h
  rcases arr with _ | ⟨b, arr⟩
  · simp at h
  rcases arr with _ | ⟨c, arr⟩
  · simp at h
  rcases arr with _ | ⟨d, arr⟩
  · simp [parseAmdMatch]
  · simp at h

/-! ## C5: detection order and the ES-module default -/

/-- C5: format detection applies the three recognizers in their fixed source
order; the first pattern that matches determines the structured result (the
string name of pattern 2 is captured and the dependency list of pattern 3 is
the empty-array text); when no pattern matches, detection returns `none` and
the transform takes the ES-module path. -/
theorem spec2proof_C5_theorem :
    ∀ (origCode : String),
      (detectExistingAmd origCode = none ↔
        (matchArrN amdPattern1 3 origCode = none ∧
         matchArrN amdPattern2 4 origCode = none ∧
         matchArrN amdPattern3 2 origCode = none)) ∧
      (∀ arr, matchArrN amdPattern1 3 origCode = some arr →
        detectExistingAmd origCode =
          some ⟨none, arr.getD 1 "", arr.getD 2 "", arr.getD 3 ""⟩) ∧
      (∀ arr, matchArrN amdPattern1 3 origCode = none →
        matchArrN amdPattern2 4 origCode = some arr →
        detectExistingAmd origCode =
          some ⟨some (arr.getD 1 ""), arr.getD 2 "", arr.getD 3 "", arr.getD 4 ""⟩) ∧
      (∀ arr, matchArrN amdPattern1 3 origCode = none →
        matchArrN amdPattern2 4 origCode = none →
        matchArrN amdPattern3 2 origCode = some arr →
        detectExistingAmd origCode =
          some ⟨none, "[]", arr.getD 1 "", arr.getD 2 ""⟩) ∧
      (∀ (code moduleId : String) (opts : TransformOptions),
        detectExistingAmd origCode = none →
        transformToAmd code moduleId (some origCode) opts =
          transformEsModuleToAmd code moduleId opts) := by
  intro orig
  refine ⟨?_, ?_, ?_, ?_, ?_⟩
  · constructor
    · intro hdet
      have g1 : matchArrN amdPattern1 3 orig = none := by
        cases h1 : matchArrN amdPattern1 3 orig with
        | none => rfl
        | some arr =>
            have hl := matchArrN_length _ _ _ _ h1
            rw [show detectExistingAmd orig = parseAmdMatch arr from by
              simp [detectExistingAmd, detectLoop, amdPatterns, h1]] at hdet
            rw [parseAmdMatch_of_len4 arr hl] at hdet
            cases hdet
      have g2 : matchArrN amdPattern2 4 orig = none := by
        cases h2 : matchArrN amdPattern2 4 orig with
        | none => rfl
        | some arr =>
            have hl := matchArrN_length _ _ _ _ h2
            rw [show detectExistingAmd orig = parseAmdMatch arr from by
              simp [detectExistingAmd, detectLoop, amdPatterns, g1, h2]] at hdet
            rw [parseAmdMatch_of_len5 arr hl] at hdet
            cases hdet
      have g3 : matchArrN amdPattern3 2 orig = none := by
        cases h3 : matchArrN amdPattern3 2 orig with
        | none => rfl
        | some arr =>
            have hl := matchArrN_length _ _ _ _ h3
            rw [show detectExistingAmd orig = parseAmdMatch arr from by
              simp [detectExistingAmd, detectLoop, amdPatterns, g1, g2, h3]] at hdet
            rw [parseAmdMatch_of_len3 arr hl] at hdet
            cases hdet
      exact ⟨g1, g2, g3⟩
    · rintro ⟨h1, h2, h3⟩
      simp [detectExistingAmd, detectLoop, amdPatterns, h1, h2, h3]
  · intro arr h1
    have hl := matchArrN_length _ _ _ _ h1
    rw [show detectExistingAmd orig = parseAmdMatch arr from by
      simp [detectExistingAmd, detectLoop, amdPatterns, h1]]
    exact parseAmdMatch_of_len4 arr hl
  · intro arr h1 h2
    have hl := matchArrN_length _ _ _ _ h2
    rw [show detectExistingAmd orig = parseAmdMatch arr from by
      simp [detectExistingAmd, detectLoop, amdPatterns, h1, h2]]
    exact parseAmdMatch_of_len5 arr hl
  · intro arr h1 h2 h3
    have hl := matchArrN_length _ _ _ _ h3
    rw [show detectExistingAmd orig = parseAmdMatch arr from by
      simp [detectExistingAmd, detectLoop, amdPatterns, h1, h2, h3]]
    exact parseAmdMatch_of_len3 arr hl
  · intro code mid opts h
    simp [transformToAmd, readOriginalSource, h]

/-- C5 witness: pattern 2 matching a concretely named module, and the
ES-module path taken on a concrete non-AMD original. -/
theorem spec2proof_C5_witness :
    detectExistingAmd "define(\"nm\", [\"a\"], function(x) \x7b return x; \x7d);" =
      some ⟨some "nm", "[\"a\"]", "x", " return x; "⟩ ∧
    transformToAmd "import A from \"core/a\";" "m/x" (some "export default 1;") {} =
      transformEsModuleToAmd "import A from \"core/a\";" "m/x" {} := by
  constructor
  · have h := ( spec2proof_C5_theorem
        "define(\"nm\", [\"a\"], function(x) \x7b return x; \x7d);").2.2.1
      ["define(\"nm\", [\"a\"], function(x) \x7b return x; \x7d);", "nm", "[\"a\"]",
        "x", " return x; "]
      (by decide) (by decide)
    simpa using h
  · exact ( spec2proof_C5_theorem "export default 1;").2.2.2.2 _ _ _ (by decide)

lemma strMk_data (s : String) : String.mk s.data = s := by
  cases s
  rfl

lemma strMk_append (a b : List Char) :
    String.mk a ++ String.mk b = String.mk (a ++ b) := rfl

lemma take_take_drop_eq (l : List Char) (i len : Nat) :
    l.take i ++ ((l.drop i).take len ++ l.drop (i + len)) = l := by
  have h2 : (l.drop i).drop len = l.drop (i + len) := by
    rw [List.drop_drop]
  rw [← h2, List.take_append_drop, List.take_append_drop]

lemma fixup_decomp (newCode : String) (i len : Nat) :
    String.mk (newCode.data.take i) ++ String.mk ((newCode.data.drop i).take len) ++
      String.mk (newCode.data.drop (i + len)) = newCode := by
  rw [strMk_append, strMk_append, List.append_assoc, take_take_drop_eq, strMk_data]

lemma fixup_unchanged_of_return (newCode : String) (i len : Nat)
    (caps : List (Nat × List Char))
    (hM : (reTest markerRe1 newCode || reTest markerRe2 newCode) = true)
    (hS : reSearchStr fixRe newCode = some (i, len, caps))
    (hR : reTest returnRe (capStr caps 2) = true) :
    defaultExportFixup newCode = newCode := by
  unfold defaultExportFixup
  rw [hM, hS]
  simp only [if_true]
  rw [hR]
  simp only [if_true]
  exact fixup_decomp newCode i len

/-! ## C6: where the default-export return is inserted -/

/-- C6 counterexample: a body containing a nested function receives the
injected return *inside the nested function* — the lazy body capture stops
at the first close-brace/close-paren — so the emitted text both changes and
still ends with the `exports.default = 1;` assignment rather than with a
return as the last statement of the function body. -/
theorem spec2proof_C6_counterexample :
    defaultExportFixup
        "define (\"m/x\", [], function() \x7b u(function() \x7b\x7d); exports.default = 1; \x7d);" =
      "define (\"m/x\", [], function() \x7b u(function() \x7b\n    return exports.default;\x7d); exports.default = 1; \x7d);" ∧
    defaultExportFixup
        "define (\"m/x\", [], function() \x7b u(function() \x7b\x7d); exports.default = 1; \x7d);" ≠
      "define (\"m/x\", [], function() \x7b u(function() \x7b\x7d); exports.default = 1; \x7d);" ∧
    jsEndsWith "exports.default = 1; \x7d);".data
      (defaultExportFixup
        "define (\"m/x\", [], function() \x7b u(function() \x7b\x7d); exports.default = 1; \x7d);").data
      = true := by
  exact ⟨by decide, by decide, by decide⟩

/-- C6 (amended): when no default-export marker is present, or the fix-up
pattern does not match, the text is unchanged; when it matches, the match
spans a decomposition of the text, the callback leaves the text unchanged if
the *lazily captured body prefix* (group 2) already contains the return, and
otherwise the return is inserted between group 2 and group 3 — i.e.
immediately before the first close-brace/close-paren/semicolon sequence
after the first function header, which is the end of the function body only
when the body contains no earlier such sequence. -/
theorem spec2proof_C6_theorem :
    ∀ (newCode : String),
      ((reTest markerRe1 newCode || reTest markerRe2 newCode) = false →
        defaultExportFixup newCode = newCode) ∧
      (reSearchStr fixRe newCode = none → defaultExportFixup newCode = newCode) ∧
      (∀ i len caps,
        (reTest markerRe1 newCode || reTest markerRe2 newCode) = true →
        reSearchStr fixRe newCode = some (i, len, caps) →
        (String.mk (newCode.data.take i) ++ String.mk ((newCode.data.drop i).take len) ++
            String.mk (newCode.data.drop (i + len)) = newCode) ∧
        (reTest returnRe (capStr caps 2) = true →
          defaultExportFixup newCode = newCode) ∧
        (reTest returnRe (capStr caps 2) = false →
          defaultExportFixup newCode =
            String.mk (newCode.data.take i) ++
              (capStr caps 1 ++ capStr caps 2 ++ "\n    return exports.default;" ++
                capStr caps 3) ++
              String.mk (newCode.data.drop (i + len)))) := by
  intro newCode
  refine ⟨?_, ?_, ?_⟩
  · intro hM
    unfold defaultExportFixup
    rw [hM]
    simp
  · intro hS
    unfold defaultExportFixup
    cases hM : (reTest markerRe1 newCode || reTest markerRe2 newCode) with
    | false => simp
    | true => rw [hS]; simp
  · intro i len caps hM hS
    refine ⟨fixup_decomp newCode i len, ?_, ?_⟩
    · intro hR
      exact fixup_unchanged_of_return newCode i len caps hM hS hR
    · intro hR
      unfold defaultExportFixup
      rw [hM, hS]
      simp only [if_true]
      rw [hR]
      simp only [Bool.false_eq_true, if_false]

/-- C6 witness: on a module whose captured body prefix already contains the
injected return, the fix-up leaves the text unchanged. -/
theorem spec2proof_C6_witness :
    defaultExportFixup
        "define (\"w\", [], function() \x7b exports.default = 2;\n    return exports.default;\x7d);" =
      "define (\"w\", [], function() \x7b exports.default = 2;\n    return exports.default;\x7d);" := by
  have h := ( spec2proof_C6_theorem
      "define (\"w\", [], function() \x7b exports.default = 2;\n    return exports.default;\x7d);").2.2
    0 81
    [(3, "\x7d);".data),
      (2, " exports.default = 2;\n    return exports.default;".data),
      (1, "define (\"w\", [], function() \x7b".data)]
    (by decide) (by decide)
  exact h.2.1 (by decide)

lemma countSub_append_of_no_straddle (p : List Char) :
    ∀ (a b : List Char),
      (∀ k, 0 < k → k < p.length → ¬ (p.take k <:+ a ∧ p.drop k <+: b)) →
      countSub p (a ++ b) = countSub p a + countSub p b := by
  intro a
  induction a with
  | nil => intro b _; simp [countSub]
  | cons c a' ih =>
      intro b H
      have H' : ∀ k, 0 < k → k < p.length → ¬ (p.take k <:+ a' ∧ p.drop k <+: b) := by
        intro k hk1 hk2 hand
        exact H k hk1 hk2 ⟨hand.1.trans (List.suffix_cons c a'), hand.2⟩
      have key : p.isPrefixOf (c :: (a' ++ b)) = p.isPrefixOf (c :: a') := by
        by_cases hlen : p.length ≤ (c :: a').length
        · rw [Bool.eq_iff_iff, List.isPrefixOf_iff_prefix, List.isPrefixOf_iff_prefix,
            List.prefix_iff_eq_take, List.prefix_iff_eq_take,
            show c :: (a' ++ b) = (c :: a') ++ b from rfl,
            List.take_append_of_le_length hlen]
        · push_neg at hlen
          have h2 : p.isPrefixOf (c :: a') = false := by
            rw [Bool.eq_false_iff]
            intro hcontra
            rw [ List.isPrefixOf_iff_prefix] at hcontra
            have := hcontra.length_le
            omega
          rw [h2, Bool.eq_false_iff]
          intro hcontra
          rw [ List.isPrefixOf_iff_prefix] at hcontra
          have hk1 : 0 < (c :: a').length := by simp
          apply H (c :: a').length hk1 hlen
          have hp2 := List.prefix_iff_eq_take.mp hcontra
          constructor
          · have htake : p.take (c :: a').length = c :: a' := by
              rw [hp2, show c :: (a' ++ b) = (c :: a') ++ b from rfl, List.take_take]
              have hmin : min (c :: a').length p.length = (c :: a').length := by omega
              rw [hmin]
              exact List.take_left _ _
            rw [htake]
          · have hdrop : p.drop (c :: a').length = b.take (p.length - (c :: a').length) := by
              conv_lhs => rw [hp2, show c :: (a' ++ b) = (c :: a') ++ b from rfl]
              rw [List.drop_take, List.drop_left]
            rw [hdrop]
            exact List.take_prefix _ _
      show countSub p (c :: (a' ++ b)) = countSub p (c :: a') + countSub p b
      simp only [countSub]
      rw [key, ih b H', Nat.add_assoc]

lemma head?_of_prefix_cons {x : Char} {xs b : List Char} (h : (x :: xs) <+: b) :
    b.head? = some x := by
  rcases h with ⟨t, rfl⟩
  rfl

lemma getLast?_of_suffix_cons {x : Char} {xs a : List Char} (h : (x :: xs) <:+ a) :
    a.getLast? = (x :: xs).getLast? := by
  rcases h with ⟨t, rfl⟩
  rw [List.getLast?_append]
  have : (x :: xs).getLast? ≠ none := by
    simp [List.getLast?_eq_none_iff]
  cases hg : (x :: xs).getLast? with
  | none => exact absurd hg this
  | some y => rfl

lemma countSub_define_append_r (a b : List Char) (c0 : Char)
    (hb : b.head? = some c0)
    (hc : c0 ≠ 'e' ∧ c0 ≠ 'f' ∧ c0 ≠ 'i' ∧ c0 ≠ 'n') :
    countSub defineChars (a ++ b) = countSub defineChars a + countSub defineChars b := by
  apply countSub_append_of_no_straddle
  intro k hk1 hk5 hand
  have hk : k < 6 := by simpa [defineChars] using hk5
  interval_cases k
  · have h1 : defineChars.drop 1 = 'e' :: "fine".data := by decide
    rw [h1] at hand
    rw [head?_of_prefix_cons hand.2] at hb
    exact hc.1 (Option.some.injEq .. ▸ hb.symm ▸ rfl)
  · have h1 : defineChars.drop 2 = 'f' :: "ine".data := by decide
    rw [h1] at hand
    rw [head?_of_prefix_cons hand.2] at hb
    exact hc.2.1 (Option.some.injEq .. ▸ hb.symm ▸ rfl)
  · have h1 : defineChars.drop 3 = 'i' :: "ne".data := by decide
    rw [h1] at hand
    rw [head?_of_prefix_cons hand.2] at hb
    exact hc.2.2.1 (Option.some.injEq .. ▸ hb.symm ▸ rfl)
  · have h1 : defineChars.drop 4 = 'n' :: "e".data := by decide
    rw [h1] at hand
    rw [head?_of_prefix_cons hand.2] at hb
    exact hc.2.2.2 (Option.some.injEq .. ▸ hb.symm ▸ rfl)
  · have h1 : defineChars.drop 5 = 'e' :: [] := by decide
    rw [h1] at hand
    rw [head?_of_prefix_cons hand.2] at hb
    exact hc.1 (Option.some.injEq .. ▸ hb.symm ▸ rfl)

lemma countSub_define_append_l (a b : List Char) (c0 : Char)
    (ha : a.getLast? = some c0)
    (hc : c0 ≠ 'd' ∧ c0 ≠ 'e' ∧ c0 ≠ 'f' ∧ c0 ≠ 'i' ∧ c0 ≠ 'n') :
    countSub defineChars (a ++ b) = countSub defineChars a + countSub defineChars b := by
  apply countSub_append_of_no_straddle
  intro k hk1 hk5 hand
  have hk : k < 6 := by simpa [defineChars] using hk5
  interval_cases k
  · have h1 : defineChars.take 1 = 'd' :: [] := by decide
    rw [h1] at hand
    rw [getLast?_of_suffix_cons hand.1] at ha
    exact hc.1 (Eq.symm (by simpa using ha))
  · have h1 : defineChars.take 2 = 'd' :: "e".data := by decide
    rw [h1] at hand
    rw [getLast?_of_suffix_cons hand.1] at ha
    exact hc.2.1 (Eq.symm (by simpa using ha))
  · have h1 : defineChars.take 3 = 'd' :: "ef".data := by decide
    rw [h1] at hand
    rw [getLast?_of_suffix_cons hand.1] at ha
    exact hc.2.2.1 (Eq.symm (by simpa using ha))
  · have h1 : defineChars.take 4 = 'd' :: "efi".data := by decide
    rw [h1] at hand
    rw [getLast?_of_suffix_cons hand.1] at ha
    exact hc.2.2.2.1 (Eq.symm (by simpa using ha))
  · have h1 : defineChars.take 5 = 'd' :: "efin".data := by decide
    rw [h1] at hand
    rw [getLast?_of_suffix_cons hand.1] at ha
    exact hc.2.2.2.2 (Eq.symm (by simpa using ha))

lemma countSub_define_replicate (n : Nat) :
    countSub defineChars (List.replicate n ' ') = 0 := by
  induction n with
  | zero => rfl
  | succ n ih =>
      rw [List.replicate_succ]
      simp only [countSub, ih]
      have : defineChars.isPrefixOf (' ' :: List.replicate n ' ') = false := by
        simp [defineChars, List.isPrefixOf]
      rw [this]
      rfl

lemma head?_append_of_head (l l' : List Char) (c : Char) (h : l.head? = some c) :
    (l ++ l').head? = some c := by
  rw [List.head?_append, h]
  rfl

lemma cnt_one_l (lit r : List Char) (c0 : Char) (h1 : lit.getLast? = some c0)
    (h2 : c0 ≠ 'd' ∧ c0 ≠ 'e' ∧ c0 ≠ 'f' ∧ c0 ≠ 'i' ∧ c0 ≠ 'n')
    (h3 : countSub defineChars lit = 1) :
    countSub defineChars (lit ++ r) = 1 + countSub defineChars r := by
  rw [countSub_define_append_l lit r c0 h1 h2, h3]

lemma cnt_zero_l (lit r : List Char) (c0 : Char) (h1 : lit.getLast? = some c0)
    (h2 : c0 ≠ 'd' ∧ c0 ≠ 'e' ∧ c0 ≠ 'f' ∧ c0 ≠ 'i' ∧ c0 ≠ 'n')
    (h3 : countSub defineChars lit = 0) :
    countSub defineChars (lit ++ r) = countSub defineChars r := by
  rw [countSub_define_append_l lit r c0 h1 h2, h3, Nat.zero_add]

lemma cnt_zero_r2 (v litNext rest : List Char) (c0 : Char)
    (hv : countSub defineChars v = 0) (hh : litNext.head? = some c0)
    (hc : c0 ≠ 'e' ∧ c0 ≠ 'f' ∧ c0 ≠ 'i' ∧ c0 ≠ 'n') :
    countSub defineChars (v ++ (litNext ++ rest)) =
      countSub defineChars (litNext ++ rest) := by
  rw [countSub_define_append_r v (litNext ++ rest) c0 (head?_append_of_head _ _ _ hh) hc,
    hv, Nat.zero_add]

lemma countSub_define_formatAmdModule (moduleId : String) (deps : List String)
    (params body : String) (opts : TransformOptions)
    (hid : countSub defineChars moduleId.data = 0)
    (hjson : countSub defineChars (jsonStringifyArr deps).data = 0)
    (hparams : countSub defineChars params.data = 0)
    (hbody : countSub defineChars (formatBody opts body).data = 0) :
    countSub defineChars (formatAmdModule moduleId deps params body opts).data = 1 := by
  have hind : (indentStr opts.indentSize).data = List.replicate opts.indentSize ' ' := rfl
  unfold formatAmdModule
  by_cases hcm : opts.addSourceComment
  · simp only [hcm, if_true, String.data_append, List.append_assoc, hind]
    rw [cnt_one_l "define(\"".data _ '"' (by decide) (by decide) (by decide)]
    rw [cnt_zero_r2 moduleId.data "\", ".data _ '"' hid (by decide) (by decide)]
    rw [cnt_zero_l "\", ".data _ ' ' (by decide) (by decide) (by decide)]
    rw [cnt_zero_r2 (jsonStringifyArr deps).data ", function(".data _ ',' hjson
      (by decide) (by decide)]
    rw [cnt_zero_l ", function(".data _ '(' (by decide) (by decide) (by decide)]
    rw [cnt_zero_r2 params.data ") \x7b\n".data _ ')' hparams (by decide) (by decide)]
    rw [cnt_zero_l ") \x7b\n".data _ '\n' (by decide) (by decide) (by decide)]
    rw [cnt_zero_r2 (List.replicate opts.indentSize ' ')
      "// Transformed from ES6 module\n".data _ '/' (countSub_define_replicate _)
      (by decide) (by decide)]
    rw [cnt_zero_l "// Transformed from ES6 module\n".data _ '\n' (by decide) (by decide)
      (by decide)]
    rw [countSub_define_append_r (formatBody opts body).data "\n\x7d);".data '\n'
      (by decide) (by decide)]
    rw [hbody, show countSub defineChars "\n\x7d);".data = 0 from by decide]
  · simp only [hcm, if_false, Bool.false_eq_true, String.data_append, List.append_assoc]
    rw [cnt_one_l "define(\"".data _ '"' (by decide) (by decide) (by decide)]
    rw [cnt_zero_r2 moduleId.data "\", ".data _ '"' hid (by decide) (by decide)]
    rw [cnt_zero_l "\", ".data _ ' ' (by decide) (by decide) (by decide)]
    rw [cnt_zero_r2 (jsonStringifyArr deps).data ", function(".data _ ',' hjson
      (by decide) (by decide)]
    rw [cnt_zero_l ", function(".data _ '(' (by decide) (by decide) (by decide)]
    rw [cnt_zero_r2 params.data ") \x7b\n".data _ ')' hparams (by decide) (by decide)]
    rw [cnt_zero_l ") \x7b\n".data _ '\n' (by decide) (by decide) (by decide)]
    rw [countSub_define_append_r (formatBody opts body).data "\n\x7d);".data '\n'
      (by decide) (by decide)]
    rw [hbody, show countSub defineChars "\n\x7d);".data = 0 from by decide]

/-! ## C7: idempotence of re-transformation -/

/-- C7: (1) re-emission of a detected AMD module ignores the previously
captured name entirely; (2-3) the emitted text contains the token `define`
exactly once — the new identifier header — whenever the identifier, the
rendered dependency array, the parameter text and the formatted body do not
themselves contain that token, so re-running the transform never duplicates
the identifier; (4) re-applying the default-export fix-up to a body that
already contains the injected return leaves the text unchanged. -/
theorem spec2proof_C7_theorem :
    (∀ (m : AmdMatch) (newName : Option String) (moduleId : String)
        (opts : TransformOptions),
      transformExistingAmd ⟨newName, m.dependencies, m.params, m.body⟩ moduleId opts =
        transformExistingAmd m moduleId opts) ∧
    (∀ (moduleId : String) (deps : List String) (params body : String)
        (opts : TransformOptions),
      countSub defineChars moduleId.data = 0 →
      countSub defineChars (jsonStringifyArr deps).data = 0 →
      countSub defineChars params.data = 0 →
      countSub defineChars (formatBody opts body).data = 0 →
      countSub defineChars (formatAmdModule moduleId deps params body opts).data = 1) ∧
    (∀ (m : AmdMatch) (moduleId : String) (opts : TransformOptions),
      countSub defineChars moduleId.data = 0 →
      countSub defineChars (jsonStringifyArr (parseDependencies m.dependencies)).data = 0 →
      countSub defineChars m.params.data = 0 →
      countSub defineChars (formatBody opts (jsTrim m.body)).data = 0 →
      countSub defineChars (transformExistingAmd m moduleId opts).data = 1) ∧
    (∀ (newCode : String) (i len : Nat) (caps : List (Nat × List Char)),
      (reTest markerRe1 newCode || reTest markerRe2 newCode) = true →
      reSearchStr fixRe newCode = some (i, len, caps) →
      reTest returnRe (capStr caps 2) = true →
      defaultExportFixup newCode = newCode) := by
  refine ⟨?_, ?_, ?_, ?_⟩
  · intro m newName moduleId opts
    cases m
    rfl
  · intro moduleId deps params body opts h1 h2 h3 h4
    exact countSub_define_formatAmdModule moduleId deps params body opts h1 h2 h3 h4
  · intro m moduleId opts h1 h2 h3 h4
    exact countSub_define_formatAmdModule moduleId (parseDependencies m.dependencies)
      m.params (jsTrim m.body) opts h1 h2 h3 h4
  · intro newCode i len caps hM hS hR
    exact fixup_unchanged_of_return newCode i len caps hM hS hR

/-- C7 witness: a concrete re-transformation carrying an old name emits the
token `define` exactly once, is independent of that old name, and a concrete
re-application of the fix-up is a no-op. -/
theorem spec2proof_C7_witness :
    countSub defineChars
      (transformExistingAmd ⟨some "old/name", "[\"a\"]", "dep0", " return 1; "⟩
        "mod_x/y" {}).data = 1 ∧
    transformExistingAmd ⟨some "other", "[\"a\"]", "dep0", " return 1; "⟩ "mod_x/y" {} =
      transformExistingAmd ⟨some "old/name", "[\"a\"]", "dep0", " return 1; "⟩
        "mod_x/y" {} ∧
    defaultExportFixup
        "define (\"q\", [], function() \x7b exports.default = 3;\n    return exports.default;\x7d);" =
      "define (\"q\", [], function() \x7b exports.default = 3;\n    return exports.default;\x7d);" := by
  refine ⟨?_, ?_, ?_⟩
  · exact spec2proof_C7_theorem.2.2.1 ⟨some "old/name", "[\"a\"]", "dep0", " return 1; "⟩
      "mod_x/y" {} (by decide) (by decide) (by decide) (by decide)
  · simpa using spec2proof_C7_theorem.1
      ⟨some "old/name", "[\"a\"]", "dep0", " return 1; "⟩ (some "other") "mod_x/y" {}
  · exact spec2proof_C7_theorem.2.2.2
      "define (\"q\", [], function() \x7b exports.default = 3;\n    return exports.default;\x7d);"
      0 81
      [(3, "\x7d);".data),
        (2, " exports.default = 3;\n    return exports.default;".data),
        (1, "define (\"q\", [], function() \x7b".data)]
      (by decide) (by decide) (by decide)

lemma findIdx?_amd_cons (x : String) (xs : List String) :
    List.findIdx? (fun p => p = "amd") (x :: xs) =
      if x = "amd" then some 0
      else (List.findIdx? (fun p => p = "amd") xs).map (fun i => i + 1) := by
  rw [List.findIdx?_cons, List.findIdx?_succ]
  by_cases h : x = "amd" <;> simp [h]

lemma findIdx?_amd_none_iff (l : List String) :
    List.findIdx? (fun p => p = "amd") l = none ↔ ∀ j, l.getD j "" ≠ "amd" := by
  induction l with
  | nil =>
      simp only [List.findIdx?_nil, true_iff]
      intro j
      simp [List.getD]
  | cons x xs ih =>
      rw [findIdx?_amd_cons]
      by_cases hx : x = "amd"
      · simp only [hx, if_true]
        constructor
        · intro h; cases h
        · intro h
          exact absurd (by simp [hx] : (("amd" : String) :: xs).getD 0 "" = "amd") (h 0)
      · simp only [hx, if_false]
        constructor
        · intro h j
          have hnone : List.findIdx? (fun p => p = "amd") xs = none := by
            cases hf : List.findIdx? (fun p => p = "amd") xs with
            | none => rfl
            | some k => rw [hf] at h; cases h
          cases j with
          | zero => simpa using hx
          | succ m => simpa using (ih.mp hnone) m
        · intro h
          have : List.findIdx? (fun p => p = "amd") xs = none := by
            apply ih.mpr
            intro m
            simpa using h (m + 1)
          rw [this]
          rfl

lemma findIdx?_amd_some_iff (l : List String) : ∀ (i : Nat),
    List.findIdx? (fun p => p = "amd") l = some i ↔
      (l.getD i "" = "amd" ∧ ∀ j, j < i → l.getD j "" ≠ "amd") := by
  induction l with
  | nil =>
      intro i
      simp only [List.findIdx?_nil]
      constructor
      · intro h; cases h
      · rintro ⟨h1, _⟩
        simp [List.getD] at h1
  | cons x xs ih =>
      intro i
      rw [findIdx?_amd_cons]
      by_cases hx : x = "amd"
      · simp only [hx, if_true]
        constructor
        · intro h
          cases h
          refine ⟨by simp [hx], ?_⟩
          intro j hj
          omega
        · rintro ⟨h1, h2⟩
          cases i with
          | zero => rfl
          | succ n =>
              exact absurd (by simp [hx] : (x :: xs).getD 0 "" = "amd")
                (by simpa [hx] using h2 0 (by omega))
      · simp only [hx, if_false]
        constructor
        · intro h
          rcases Option.map_eq_some'.mp h with ⟨n, hn, hni⟩
          have hrec := (ih n).mp hn
          subst hni
          refine ⟨by simpa using hrec.1, ?_⟩
          intro j hj
          cases j with
          | zero => simpa using hx
          | succ m =>
              have := hrec.2 m (by omega)
              simpa using this
        · rintro ⟨h1, h2⟩
          cases i with
          | zero =>
              exfalso
              exact hx (by simpa using h1)
          | succ n =>
              have : List.findIdx? (fun p => p = "amd") xs = some n := by
                apply (ih n).mpr
                refine ⟨by simpa using h1, ?_⟩
                intro j hj
                have := h2 (j + 1) (by omega)
                simpa using this
              rw [this]
              rfl

/-! ## C8: the path classifier uses the first 'amd' segment -/

/-- C8 counterexample: a path that does contain an `amd/src/<file>` segment
run is rejected by the code, because an earlier `amd` segment (not followed
by `src`) is the one `indexOf` selects. -/
theorem spec2proof_C8_counterexample :
    claimAmdPathCheck "a/amd/b/amd/src/c.js" = true ∧
    isValidMoodleAmdPath "a/amd/b/amd/src/c.js" = false := by
  exact ⟨by decide, by decide⟩

/-- C8 (amended): a path is accepted exactly when its *first* `amd` segment
is immediately followed by `src` and a further non-empty segment, and the
path ends with `.js`; the check is purely syntactic (a total function of the
path string). -/
theorem spec2proof_C8_theorem :
    ∀ (filePath : String),
      isValidMoodleAmdPath filePath = true ↔
        ((∃ i, (pathParts filePath).getD i "" = "amd" ∧
            (∀ j, j < i → (pathParts filePath).getD j "" ≠ "amd") ∧
            (pathParts filePath).getD (i + 1) "" = "src" ∧
            (pathParts filePath).getD (i + 2) "" ≠ "") ∧
          jsEndsWith ".js".data filePath.data = true) := by
  intro fp
  unfold isValidMoodleAmdPath
  cases hidx : List.findIdx? (fun p => p = "amd") (pathParts fp) with
  | none =>
      simp only [hidx]
      constructor
      · intro h; cases h
      · rintro ⟨⟨i, h1, _, _⟩, _⟩
        exact absurd h1 ((findIdx?_amd_none_iff _).mp hidx i)
  | some i =>
      have hi := (findIdx?_amd_some_iff _ i).mp hidx
      simp only [hidx, Bool.and_eq_true, decide_eq_true_eq]
      constructor
      · rintro ⟨⟨hsrc, hne⟩, hjs⟩
        exact ⟨⟨i, hi.1, hi.2, hsrc, hne⟩, hjs⟩
      · rintro ⟨⟨i', h1, h2, hsrc, hne⟩, hjs⟩
        have hii : i' = i := by
          rcases lt_trichotomy i' i with h | h | h
          · exact absurd h1 (hi.2 i' h)
          · exact h
          · exact absurd hi.1 (h2 i h)
        subst hii
        exact ⟨⟨hsrc, hne⟩, hjs⟩

/-- C8 witness: the amended characterization applied at a concrete accepted
path. -/
theorem spec2proof_C8_witness :
    isValidMoodleAmdPath "lib/amd/src/x.js" = true := by
  apply ( spec2proof_C8_theorem "lib/amd/src/x.js").mpr
  refine ⟨⟨1, by decide, ?_, by decide, by decide⟩, by decide⟩
  intro j hj
  interval_cases j
  decide

lemma processSingleFile_eq (resolver : String → Except String String)
    (build : String → Except String Unit) (st : Stats) (fp : String) :
    processSingleFile resolver build st fp =
      ({ st with
          processed := st.processed + 1,
          succeeded := st.succeeded +
            (if (resultOf resolver build fp).success then 1 else 0),
          failed := st.failed +
            (if (resultOf resolver build fp).success then 0 else 1) },
       resultOf resolver build fp) := by
  unfold processSingleFile resultOf
  rcases h1 : resolver fp with e | nm
  · simp
  · rcases h2 : build fp with e2 | u
    · simp
    · simp

lemma processFold_eq (resolver : String → Except String String)
    (build : String → Except String Unit) (batch : List String) :
    ∀ (st : Stats) (acc : List FileResult),
      batch.foldl (fun a fp =>
        let out := processSingleFile resolver build a.fst fp
        (out.fst, a.snd ++ [out.snd])) (st, acc) =
      ({ st with
          processed := st.processed + batch.length,
          succeeded := st.succeeded +
            batch.countP (fun f => (resultOf resolver build f).success),
          failed := st.failed +
            batch.countP (fun f => !(resultOf resolver build f).success) },
       acc ++ batch.map (resultOf resolver build)) := by
  induction batch with
  | nil =>
      intro st acc
      cases st
      simp [List.countP, List.countP.go]
  | cons f fs ih =>
      intro st acc
      show List.foldl _ ((processSingleFile resolver build st f).fst,
          acc ++ [(processSingleFile resolver build st f).snd]) fs = _
      rw [processSingleFile_eq, ih]
      cases st
      cases hsucc : (resultOf resolver build f).success <;>
        simp [List.countP_cons, hsucc, List.append_assoc] <;> omega

lemma processBatch_eq (resolver : String → Except String String)
    (build : String → Except String Unit) (st : Stats) (batch : List String) :
    processBatch resolver build st batch =
      ({ st with
          processed := st.processed + batch.length,
          succeeded := st.succeeded +
            batch.countP (fun f => (resultOf resolver build f).success),
          failed := st.failed +
            batch.countP (fun f => !(resultOf resolver build f).success) },
       batch.map (resultOf resolver build)) := by
  unfold processBatch
  rw [processFold_eq]
  simp

lemma processBatchesFold_eq (resolver : String → Except String String)
    (build : String → Except String Unit) (bs : List (List String)) :
    ∀ (st : Stats) (acc : List FileResult),
      bs.foldl (fun a batch =>
        let out := processBatch resolver build a.fst batch
        (out.fst, a.snd ++ out.snd)) (st, acc) =
      ({ st with
          processed := st.processed + bs.flatten.length,
          succeeded := st.succeeded +
            bs.flatten.countP (fun f => (resultOf resolver build f).success),
          failed := st.failed +
            bs.flatten.countP (fun f => !(resultOf resolver build f).success) },
       acc ++ bs.flatten.map (resultOf resolver build)) := by
  induction bs with
  | nil =>
      intro st acc
      cases st
      simp [List.countP, List.countP.go]
  | cons batch rest ih =>
      intro st acc
      show List.foldl _ ((processBatch resolver build st batch).fst,
          acc ++ (processBatch resolver build st batch).snd) rest = _
      rw [processBatch_eq, ih]
      cases st
      simp [List.flatten_cons, List.countP_append, List.append_assoc, Nat.add_assoc]

lemma chunkArray_cons (x : String) (xs : List String) (size : Nat) (hs : 0 < size) :
    chunkArray (x :: xs) size =
      (x :: xs).take size :: chunkArray ((x :: xs).drop size) size := by
  unfold chunkArray
  have hcnt : ((x :: xs).length + size - 1) / size =
      (((x :: xs).drop size).length + size - 1) / size + 1 := by
    rw [List.length_drop]
    rcases Nat.lt_or_ge (x :: xs).length size with h | h
    · have hl : 0 < (x :: xs).length := by simp
      have e1 : (x :: xs).length - size = 0 := by omega
      rw [e1]
      have e2 : (0 + size - 1) / size = 0 := Nat.div_eq_of_lt (by omega)
      rw [e2]
      have e3 : ((x :: xs).length + size - 1) / size = 1 :=
        Nat.div_eq_of_lt_le (by omega) (by omega)
      rw [e3]
    · have e1 : (x :: xs).length + size - 1 = ((x :: xs).length - size + size - 1) + size := by
        omega
      rw [e1, Nat.add_div_right _ hs]
  rw [hcnt, List.range_succ_eq_map]
  simp only [List.map_cons, List.map_map]
  congr 1
  · simp
  · apply List.map_congr_left
    intro i _
    simp only [Function.comp]
    rw [List.drop_drop]
    congr 2
    rw [Nat.succ_mul]
    ring

lemma chunkArray_flatten_aux (size : Nat) (hs : 0 < size) :
    ∀ (n : Nat) (l : List String), l.length ≤ n → (chunkArray l size).flatten = l := by
  intro n
  induction n with
  | zero =>
      intro l hl
      have hnil : l = [] := List.eq_nil_of_length_eq_zero (by omega)
      subst hnil
      have e2 : (([] : List String).length + size - 1) / size = 0 :=
        Nat.div_eq_of_lt (by simp; omega)
      simp [chunkArray, e2]
  | succ n ih =>
      intro l hl
      cases l with
      | nil =>
          have e2 : (([] : List String).length + size - 1) / size = 0 :=
            Nat.div_eq_of_lt (by simp; omega)
          simp [chunkArray, e2]
      | cons x xs =>
          rw [chunkArray_cons x xs size hs, List.flatten_cons,
            ih ((x :: xs).drop size)
              (by rw [List.length_drop]; simp only [List.length_cons] at hl ⊢; omega)]
          exact List.take_append_drop size (x :: xs)

lemma chunkArray_flatten (size : Nat) (hs : 0 < size) (l : List String) :
    (chunkArray l size).flatten = l :=
  chunkArray_flatten_aux size hs l.length l le_rfl

lemma resultOf_filePath (resolver : String → Except String String)
    (build : String → Except String Unit) (fp : String) :
    (resultOf resolver build fp).filePath = fp := by
  unfold resultOf
  rcases resolver fp with e | nm
  · rfl
  · rcases build fp with e2 | u <;> rfl

lemma resultOf_success (resolver : String → Except String String)
    (build : String → Except String Unit) (fp : String) :
    (resultOf resolver build fp).success = ((resolver fp).isOk && (build fp).isOk) := by
  unfold resultOf
  rcases resolver fp with e | nm
  · simp [Except.isOk, Except.toBool]
  · rcases build fp with e2 | u <;> simp [Except.isOk, Except.toBool]

lemma countP_add_countP_not (p : String → Bool) (l : List String) :
    l.countP p + l.countP (fun a => !(p a)) = l.length := by
  induction l with
  | nil => simp [List.countP, List.countP.go]
  | cons x xs ih =>
      simp only [List.countP_cons, List.length_cons]
      cases hx : p x <;> simp [hx] <;> omega

lemma processMultipleFiles_eq (resolver : String → Except String String)
    (build : String → Except String Unit) (files : List String) (concurrency : Nat)
    (hc : 0 < concurrency) :
    processMultipleFiles resolver build files concurrency =
      ({ processed := files.length,
         succeeded := files.countP (fun f => (resultOf resolver build f).success),
         failed := files.countP (fun f => !(resultOf resolver build f).success),
         skipped := 0 },
       files.map (resultOf resolver build)) := by
  unfold processMultipleFiles
  by_cases hf : files.isEmpty
  · have : files = [] := List.isEmpty_iff.mp hf
    subst this
    simp [List.countP, List.countP.go]
  · simp only [hf, if_false, Bool.false_eq_true]
    rw [processBatchesFold_eq resolver build (chunkArray files concurrency) ⟨0, 0, 0, 0⟩ [],
      chunkArray_flatten concurrency hc files]
    simp

/-! ## C9: batch statistics and independence of failures -/

/-- C9: for a batch where every file whose identifier resolves also builds,
the statistics count exactly the resolution failures as failed, all other
files as succeeded, the total processed equals the number of files, and
every file — including those after a failure — appears in the result list,
in order. -/
theorem spec2proof_C9_theorem :
    ∀ (resolver : String → Except String String) (build : String → Except String Unit)
      (files : List String) (concurrency : Nat),
      0 < concurrency →
      (∀ f, f ∈ files → (resolver f).isOk = true → (build f).isOk = true) →
      (processMultipleFiles resolver build files concurrency).fst.processed =
          files.length ∧
      (processMultipleFiles resolver build files concurrency).fst.failed =
          files.countP (fun f => !(resolver f).isOk) ∧
      (processMultipleFiles resolver build files concurrency).fst.succeeded =
          files.length - files.countP (fun f => !(resolver f).isOk) ∧
      (processMultipleFiles resolver build files concurrency).fst.skipped = 0 ∧
      (processMultipleFiles resolver build files concurrency).snd.map
          (fun r => r.filePath) = files := by
  intro resolver build files conc hc hbuild
  rw [processMultipleFiles_eq resolver build files conc hc]
  have hfail : files.countP (fun f => !(resultOf resolver build f).success) =
      files.countP (fun f => !(resolver f).isOk) := by
    apply List.countP_congr
    intro f hf
    rw [resultOf_success]
    cases hr : (resolver f).isOk
    · simp
    · have hb := hbuild f hf hr
      simp [hb]
  have hsucc : files.countP (fun f => (resultOf resolver build f).success) =
      files.length - files.countP (fun f => !(resolver f).isOk) := by
    have hadd := countP_add_countP_not (fun f => (resultOf resolver build f).success) files
    rw [hfail] at hadd
    omega
  refine ⟨rfl, hfail, hsucc, rfl, ?_⟩
  rw [List.map_map]
  have : files.map (fun f => (resultOf resolver build f).filePath) = files.map id := by
    apply List.map_congr_left
    intro f _
    exact resultOf_filePath resolver build f
  simpa [Function.comp] using this.trans (List.map_id files)

/-- C9 witness: three files, one with a malformed path, processed with
concurrency two: one failure, two successes, three processed, all three in
the results. -/
theorem spec2proof_C9_witness :
    (processMultipleFiles
        (fun f => if f = "bad" then Except.error "bad path" else Except.ok f)
        (fun _ => Except.ok ()) ["a", "bad", "b"] 2).fst.processed = 3 ∧
    (processMultipleFiles
        (fun f => if f = "bad" then Except.error "bad path" else Except.ok f)
        (fun _ => Except.ok ()) ["a", "bad", "b"] 2).fst.failed = 1 ∧
    (processMultipleFiles
        (fun f => if f = "bad" then Except.error "bad path" else Except.ok f)
        (fun _ => Except.ok ()) ["a", "bad", "b"] 2).fst.succeeded = 2 ∧
    (processMultipleFiles
        (fun f => if f = "bad" then Except.error "bad path" else Except.ok f)
        (fun _ => Except.ok ()) ["a", "bad", "b"] 2).snd.map
        (fun r => r.filePath) = ["a", "bad", "b"] := by
  have h := spec2proof_C9_theorem
      (fun f => if f = "bad" then Except.error "bad path" else Except.ok f)
      (fun _ => Except.ok ()) ["a", "bad", "b"] 2 (by decide)
      (by intro f _ _; rfl)
  refine ⟨?_, ?_, ?_, ?_⟩
  · rw [h.1]
    decide
  · rw [h.2.1]
    decide
  · rw [h.2.2.1]
    decide
  · exact h.2.2.2.2

end Esm2Cjs
